import Mathlib

/-!
Verification of the editor state core of `freya-editor`.

Shallow embedding of:
* the cursor synchronization handler of `src/use_editable.rs` (`use_edit`),
* the subscription registry and write-guard notification of
  `src/hooks/use_manager.rs` (`EditorManagerInnerGuard`, `SubscriptionModel`),
* the `EditorManager` panel/tab operations of `src/manager.rs`
  (`push_tab`, `close_editor`, `push_panel`, `close_panel`; the copies in
  `src/hooks/use_manager.rs` are textually identical in these methods),
* the keyboard modifier policy of `src/tabs/code_editor.rs` (`onkeydown`),
* the LSP hover action loop of `src/tabs/code_editor.rs` (`lsp_coroutine`)
  and the per-line hover display guard of `EditorLine`.

Machine integers (`usize`, `i32`) are modelled as `Nat`/`Int`; none of the
verified operations can overflow in the claimed domains.  `f32` quantities
that only flow through the state unchanged are modelled as `ℚ`.
-/

namespace FreyaEditor

/-! ### Cursor synchronization (src/use_editable.rs, `use_edit`)

The layout engine answers a click with a `(col, row)` pair on the cursor
channel.  The handler reads the clicked line, clamps the column to the line's
character length, and mutates the editor's cursor only when the clamped pair
differs from the current cursor (`editor.cursor.as_tuple()` is `(col, row)`).
`lineLen` stands for `editor.rope.line(row).chars().len()`. -/

/-- `if new_cursor_col >= new_current_line.chars().len() { (len, row) } else { (col, row) }`. -/
def clamp_cursor (lineLen col row : Nat) : Nat × Nat :=
  if col ≥ lineLen then (lineLen, row) else (col, row)

/-- The conditional commit: `some c` means the handler mutates the cursor to
`c` (inside `editor_manager.with_mut`), `none` means no mutation happens and
therefore no observer notification fires. -/
def process_cursor_response (lineLen col row : Nat) (current : Nat × Nat) :
    Option (Nat × Nat) :=
  let new_cursor := clamp_cursor lineLen col row
  if current ≠ new_cursor then some new_cursor else none

/-- The cursor value after the response is handled: the committed value when a
mutation happens, the untouched current cursor otherwise. -/
def committed_cursor (lineLen col row : Nat) (current : Nat × Nat) : Nat × Nat :=
  match process_cursor_response lineLen col row current with
  | some c => c
  | none => current

/-! ### Subscription registry (src/hooks/use_manager.rs)

Observers register an interest (`SubscriptionModel`) in the `subscribers`
map.  When a write guard is dropped, the scheduler is invoked for exactly the
scopes whose registered model equals the guard's model.  A `global_write`
guard carries `SubscriptionModel::All`; a scoped `write` guard carries the
acting component's own registered model (`subscribers.get(&self.scope)`). -/

/-- `SubscriptionModel` of src/hooks/use_manager.rs. -/
inductive SubscriptionModel where
  | All : SubscriptionModel
  | Tab (panel_index editor_index : Nat) : SubscriptionModel
deriving DecidableEq, Repr

/-- The scope ids scheduled by `Drop for EditorManagerInnerGuard`: every
subscriber whose registered model equals the guard's model. -/
def notified_scopes (subscribers : List (Nat × SubscriptionModel))
    (model : SubscriptionModel) : List Nat :=
  (subscribers.filter (fun p => p.2 == model)).map Prod.fst

/-- The model a `global_write` guard carries (`EditorManagerInner::global_write`). -/
def global_write_model : SubscriptionModel := SubscriptionModel.All

/-- The model a scoped `write` guard carries: the acting component's own
registered interest (`subscribers.get(&self.scope).unwrap()`; `none` models
the unwrap panic on an unregistered scope). -/
def scoped_write_model (subscribers : List (Nat × SubscriptionModel))
    (scope : Nat) : Option SubscriptionModel :=
  subscribers.lookup scope

/-- All registered observer scope ids. -/
def registered_scopes (subscribers : List (Nat × SubscriptionModel)) : List Nat :=
  subscribers.map Prod.fst

/-! ### Claim C1 -/

/-- C1: for every cursor-sync response `(col, row)`, the cursor after the
handler runs equals `(min col (char_len (line row)), row)`, and when that
clamped pair already equals the current cursor the handler performs no
mutation (`process_cursor_response` returns `none`), hence no notification. -/
theorem c1_cursor_sync (lineLen col row curCol curRow : Nat) :
    committed_cursor lineLen col row (curCol, curRow) = (min col lineLen, row) ∧
    ((curCol, curRow) = (min col lineLen, row) →
      process_cursor_response lineLen col row (curCol, curRow) = none) := by
  have hclamp : clamp_cursor lineLen col row = (min col lineLen, row) := by
    unfold clamp_cursor
    rcases le_or_lt lineLen col with h | h
    · simp [h, Nat.min_eq_right h]
    · have h' : ¬ col ≥ lineLen := by omega
      simp [h', Nat.min_eq_left (Nat.le_of_lt h)]
  constructor
  · unfold committed_cursor process_cursor_response
    rw [hclamp]
    by_cases hne : (curCol, curRow) = (min col lineLen, row)
    · simp [hne]
    · simp [hne]
  · intro hcur
    unfold process_cursor_response
    rw [hclamp]
    simp [hcur]

/-- Witness for C1 at a concrete input: line length 3, clicked column 7,
row 1, current cursor already at the clamped position `(3, 1)`. -/
theorem c1_cursor_sync_witness :
    committed_cursor 3 7 1 (3, 1) = (min 7 3, 1) ∧
    process_cursor_response 3 7 1 (3, 1) = none :=
  ⟨(c1_cursor_sync 3 7 1 3 1).1, (c1_cursor_sync 3 7 1 3 1).2 (by decide)⟩

/-! ### Claim C2 -/

/-- C2 counterexample: with subscribers `[(0, All), (1, Tab 0 0)]`, scope 1
is a registered observer, yet a `global_write` (model `All`) does not notify
it — refuting "a global_write notifies every registered observer". -/
theorem c2_counterexample :
    1 ∈ registered_scopes [(0, SubscriptionModel.All), (1, SubscriptionModel.Tab 0 0)] ∧
    1 ∉ notified_scopes [(0, SubscriptionModel.All), (1, SubscriptionModel.Tab 0 0)]
        global_write_model := by
  decide

/-- C2 amended: a released guard notifies exactly the observers whose
registered interest equals the guard's model.  A `global_write` guard carries
the `All` model, so it notifies exactly the observers registered with `All`
interest (not necessarily every observer); a scoped `write` guard carries the
acting component's own registered interest `m` and notifies exactly the
observers whose interest equals `m`. -/
theorem c2_guard_notification (subscribers : List (Nat × SubscriptionModel))
    (acting sid : Nat) (m : SubscriptionModel) :
    (sid ∈ notified_scopes subscribers global_write_model ↔
      ∃ p ∈ subscribers, p.1 = sid ∧ p.2 = SubscriptionModel.All) ∧
    (scoped_write_model subscribers acting = some m →
      (sid ∈ notified_scopes subscribers m ↔
        ∃ p ∈ subscribers, p.1 = sid ∧ p.2 = m)) := by
  have key : ∀ mo : SubscriptionModel,
      sid ∈ notified_scopes subscribers mo ↔
        ∃ p ∈ subscribers, p.1 = sid ∧ p.2 = mo := by
    intro mo
    unfold notified_scopes
    simp only [List.mem_map, List.mem_filter, beq_iff_eq]
    constructor
    · rintro ⟨p, ⟨hp, hmo⟩, hfst⟩
      exact ⟨p, hp, hfst, hmo⟩
    · rintro ⟨p, hp, hfst, hmo⟩
      exact ⟨p, ⟨hp, hmo⟩, hfst⟩
  exact ⟨key global_write_model, fun _ => key m⟩

/-- Witness for C2's amended theorem at a concrete registry: with
subscribers `[(0, All), (1, Tab 0 0)]` and acting scope 1 (registered
interest `Tab 0 0`), scope 1 is notified by a scoped write. -/
theorem c2_guard_notification_witness :
    1 ∈ notified_scopes [(0, SubscriptionModel.All), (1, SubscriptionModel.Tab 0 0)]
        (SubscriptionModel.Tab 0 0) :=
  ((c2_guard_notification
      [(0, SubscriptionModel.All), (1, SubscriptionModel.Tab 0 0)]
      1 1 (SubscriptionModel.Tab 0 0)).2 (by decide)).mpr
    ⟨(1, SubscriptionModel.Tab 0 0), by decide, rfl, rfl⟩

/-! ### Editor state tree (src/manager.rs; identical methods in src/hooks/use_manager.rs)

`EditorData` is from src/use_editable.rs (`cursor`, `rope`, `path`); the rope
is modelled as its list of lines.  `f32` fields (`font_size`, `line_height`)
are modelled as `ℚ`; the `lsp_status_coroutine` channel handle carries no
state and is omitted. -/

/-- `TextCursor { row, col }`. -/
structure TextCursor where
  row : Nat
  col : Nat
deriving DecidableEq, Repr

/-- `EditorData { cursor, rope, path }` of src/use_editable.rs. -/
structure EditorData where
  cursor : TextCursor
  rope : List String
  path : String
deriving DecidableEq, Repr

/-- `LSPBridge`: the per-server bridge with its shared `indexed` readiness
flag (the server socket itself is an external collaborator). -/
structure LSPBridge where
  indexed : Bool
deriving DecidableEq, Repr

/-- `PanelTab`: `TextEditor(EditorData) | Config`. -/
inductive PanelTab where
  | TextEditor (editor : EditorData) : PanelTab
  | Config : PanelTab
deriving DecidableEq, Repr

/-- `PathBuf::file_name`: the last `/`-separated component of the path. -/
def file_name (path : String) : String :=
  (path.splitOn "/").getLastD ""

/-- `PanelTab::get_data` of src/manager.rs: `(identity key, display title)`.
The identity key (component `.0` in the source) is the normalized path string,
or `"config"` for the config tab. -/
def PanelTab.get_data : PanelTab → String × String
  | PanelTab.Config => ("config", "Config")
  | PanelTab.TextEditor editor => (editor.path, file_name editor.path)

/-- `Panel { active_tab: Option<usize>, tabs: Vec<PanelTab> }`. -/
structure Panel where
  active_tab : Option Nat := none
  tabs : List PanelTab := []
deriving DecidableEq, Repr

/-- `Panel::new()` (the `Default` derive). -/
def Panel.new : Panel := {}

/-- `EditorManager` of src/manager.rs (the external
`lsp_status_coroutine` channel handle carries no state and is omitted). -/
structure EditorManager where
  is_focused : Bool
  focused_panel : Nat
  panes : List Panel
  font_size : ℚ
  line_height : ℚ
  language_servers : List (String × LSPBridge)
deriving DecidableEq, Repr

/-- `EditorManager::new`. -/
def EditorManager.new : EditorManager where
  is_focused := true
  focused_panel := 0
  panes := [Panel.new]
  font_size := 17
  line_height := 6 / 5
  language_servers := []

/-- The panel at an index; `self.panes[panel]` panics when the index is out
of range, so theorems carry `panel < m.panes.length`. -/
def EditorManager.panelAt (m : EditorManager) (panel : Nat) : Panel :=
  m.panes.getD panel Panel.new

/-- The `find` in `push_tab`:
`tabs.iter().enumerate().find(|(_, t)| t.get_data().0 == tab.get_data().0)`,
i.e. the first index holding a tab with the same identity key. -/
def find_opened_tab (tabs : List PanelTab) (tab : PanelTab) : Option Nat :=
  tabs.findIdx? (fun t => t.get_data.1 == tab.get_data.1)

/-- `EditorManager::push_tab(tab, panel, focus)`. -/
def EditorManager.push_tab (m : EditorManager) (tab : PanelTab) (panel : Nat)
    (focus : Bool) : EditorManager :=
  let p := m.panelAt panel
  match find_opened_tab p.tabs tab with
  | some tab_index =>
    if focus then
      { m with
        focused_panel := panel
        panes := m.panes.set panel { p with active_tab := some tab_index } }
    else m
  | none =>
    let p' := { p with tabs := p.tabs ++ [tab] }
    if focus then
      { m with
        focused_panel := panel
        panes := m.panes.set panel
          { p' with active_tab := some (p'.tabs.length - 1) } }
    else { m with panes := m.panes.set panel p' }

/-- `EditorManager::close_editor(panel, editor)`. -/
def EditorManager.close_editor (m : EditorManager) (panel editor : Nat) :
    EditorManager :=
  let p := m.panelAt panel
  let p1 :=
    match p.active_tab with
    | some active_tab =>
      let prev_editor := 0 < editor
      let next_editor := (p.tabs.get? (editor + 1)).isSome
      if active_tab = editor then
        { p with active_tab :=
            if next_editor then some editor
            else if prev_editor then some (editor - 1)
            else none }
      else if active_tab ≥ editor then
        { p with active_tab := some (active_tab - 1) }
      else p
    | none => p
  { m with panes := m.panes.set panel { p1 with tabs := p1.tabs.eraseIdx editor } }

/-- `EditorManager::push_panel(panel)`. -/
def EditorManager.push_panel (m : EditorManager) (panel : Panel) : EditorManager :=
  { m with panes := m.panes ++ [panel] }

/-- `EditorManager::close_panel(panel)`: no-op unless more than one panel
remains; otherwise remove the panel and decrement a nonzero focus. -/
def EditorManager.close_panel (m : EditorManager) (panel : Nat) : EditorManager :=
  if 1 < m.panes.length then
    { m with
      panes := m.panes.eraseIdx panel
      focused_panel :=
        if 0 < m.focused_panel then m.focused_panel - 1 else m.focused_panel }
  else m

/-- A panel-level operation, for the reachability claim C5. -/
inductive PanelOp where
  | push (panel : Panel) : PanelOp
  | close (index : Nat) : PanelOp

/-- Apply one `push_panel`/`close_panel` operation. -/
def apply_panel_op (m : EditorManager) : PanelOp → EditorManager
  | PanelOp.push p => m.push_panel p
  | PanelOp.close i => m.close_panel i

/-- Apply a sequence of panel operations, oldest first. -/
def apply_panel_ops (m : EditorManager) (ops : List PanelOp) : EditorManager :=
  ops.foldl apply_panel_op m

/-! ### Claim C3 -/

/-- Auxiliary: reading back the panel just written by `List.set`. -/
theorem panelAt_set_self (panes : List Panel) (panel : Nat) (p : Panel)
    (hp : panel < panes.length) :
    (panes.set panel p).getD panel Panel.new = p := by
  rw [List.getD_eq_getElem?_getD, List.getElem?_set_self (by simpa using hp)]
  rfl

/-- C3: `push_tab` is idempotent on the identity key.  If a tab with the
pushed tab's key already occurs in the panel (the `find` returns index `i`),
no new tab is inserted — the tab list, hence the tab count, is unchanged —
and with `focus = true` the existing index `i` becomes the panel's active tab
while the panel becomes the focused panel; if the key does not occur, the tab
is appended at the end. -/
theorem c3_push_tab (m : EditorManager) (tab : PanelTab) (panel : Nat)
    (focus : Bool) (hp : panel < m.panes.length) :
    (∀ i, find_opened_tab (m.panelAt panel).tabs tab = some i →
      ((m.push_tab tab panel focus).panelAt panel).tabs = (m.panelAt panel).tabs ∧
      (focus = true →
        (m.push_tab tab panel focus).focused_panel = panel ∧
        ((m.push_tab tab panel focus).panelAt panel).active_tab = some i)) ∧
    (find_opened_tab (m.panelAt panel).tabs tab = none →
      ((m.push_tab tab panel focus).panelAt panel).tabs =
        (m.panelAt panel).tabs ++ [tab]) := by
  constructor
  · intro i hfind
    simp only [EditorManager.push_tab, hfind]
    cases focus with
    | false => simp
    | true =>
      refine ⟨?_, fun _ => ⟨rfl, ?_⟩⟩ <;>
        simp [EditorManager.panelAt, hp]
  · intro hfind
    simp only [EditorManager.push_tab, hfind]
    cases focus <;>
      simp [EditorManager.panelAt, hp]

/-- A concrete one-panel state holding only the config tab. -/
def config_only_manager : EditorManager :=
  { EditorManager.new with
    panes := [{ active_tab := some 0, tabs := [PanelTab.Config] }] }

/-- Witness for C3: pushing the config tab again with focus finds it at
index 0, keeps the tab list unchanged and focuses panel 0 / tab 0. -/
theorem c3_push_tab_witness :
    ((config_only_manager.push_tab PanelTab.Config 0 true).panelAt 0).tabs =
        (config_only_manager.panelAt 0).tabs ∧
    (config_only_manager.push_tab PanelTab.Config 0 true).focused_panel = 0 ∧
    ((config_only_manager.push_tab PanelTab.Config 0 true).panelAt 0).active_tab =
        some 0 := by
  have h := (c3_push_tab config_only_manager PanelTab.Config 0 true
    (by decide)).1 0 (by decide)
  exact ⟨h.1, (h.2 rfl).1, (h.2 rfl).2⟩

/-! ### Claim C4 -/

/-- C4: `close_editor(panel, editor)` on a panel whose active tab is `a`:
the tab at `editor` is removed from the tab sequence; if the removed tab was
the active one, the new active tab is the following tab when one exists
(`editor + 1 < tabs.length`), else the preceding tab (`0 < editor`), else
`none`; and if the active index was after the removed index it is
decremented by one. -/
theorem c4_close_editor (m : EditorManager) (panel editor a : Nat)
    (hp : panel < m.panes.length)
    (ha : (m.panelAt panel).active_tab = some a)
    (he : editor < (m.panelAt panel).tabs.length) :
    ((m.close_editor panel editor).panelAt panel).tabs =
        (m.panelAt panel).tabs.eraseIdx editor ∧
    (a = editor →
      ((m.close_editor panel editor).panelAt panel).active_tab =
        if editor + 1 < (m.panelAt panel).tabs.length then some editor
        else if 0 < editor then some (editor - 1) else none) ∧
    (editor < a →
      ((m.close_editor panel editor).panelAt panel).active_tab = some (a - 1)) := by
  have hnext : ((m.panelAt panel).tabs.get? (editor + 1)).isSome =
      decide (editor + 1 < (m.panelAt panel).tabs.length) := by
    rcases Nat.lt_or_ge (editor + 1) (m.panelAt panel).tabs.length with h | h
    · simp [List.get?_eq_getElem?, List.getElem?_eq_getElem h, h]
    · simp [List.get?_eq_getElem?, List.getElem?_eq_none h, Nat.not_lt.mpr h]
  refine ⟨?_, ?_, ?_⟩
  · simp only [EditorManager.close_editor, ha]
    by_cases hae : a = editor <;>
      by_cases hge : a ≥ editor <;>
      simp [hae, hge, EditorManager.panelAt, hp] at *
  · intro hae
    subst hae
    simp only [EditorManager.close_editor, ha, if_pos rfl, hnext]
    by_cases h : a + 1 < (m.panelAt panel).tabs.length <;>
      by_cases h0 : 0 < a <;>
      simp [h, h0, EditorManager.panelAt, hp]
  · intro hlt
    have hae : ¬ a = editor := by omega
    have hge : a ≥ editor := Nat.le_of_lt hlt
    simp only [EditorManager.close_editor, ha]
    simp [hae, hge, EditorManager.panelAt, hp]

/-- A concrete two-tab state: active tab 0, tabs `[Config, TextEditor]`. -/
def two_tab_manager : EditorManager :=
  { EditorManager.new with
    panes := [{ active_tab := some 0,
                tabs := [PanelTab.Config,
                         PanelTab.TextEditor ⟨⟨0, 0⟩, ["ab"], "/a.rs"⟩] }] }

/-- Witness for C4: closing the active tab 0 of a two-tab panel removes it
and selects the following tab. -/
theorem c4_close_editor_witness :
    ((two_tab_manager.close_editor 0 0).panelAt 0).tabs =
        (two_tab_manager.panelAt 0).tabs.eraseIdx 0 ∧
    ((two_tab_manager.close_editor 0 0).panelAt 0).active_tab =
        (if 0 + 1 < (two_tab_manager.panelAt 0).tabs.length then some 0
         else if 0 < 0 then some (0 - 1) else none) := by
  have h := c4_close_editor two_tab_manager 0 0 0 (by decide) (by decide) (by decide)
  exact ⟨h.1, h.2.1 rfl⟩

/-! ### Claim C9 -/

/-- C9: pushing a tab whose identity key already occurs in the panel with
`focus = false` leaves the entire `EditorManager` state unchanged — no field
is modified. -/
theorem c9_push_tab_no_focus_frame (m : EditorManager) (tab : PanelTab)
    (panel : Nat) (hp : panel < m.panes.length)
    (hex : ∃ t ∈ (m.panelAt panel).tabs, t.get_data.1 = tab.get_data.1) :
    m.push_tab tab panel false = m := by
  obtain ⟨t, ht, hkey⟩ := hex
  have hfind : (find_opened_tab (m.panelAt panel).tabs tab).isSome := by
    unfold find_opened_tab
    rw [List.findIdx?_isSome]
    exact List.any_eq_true.mpr ⟨t, ht, by simpa using hkey⟩
  obtain ⟨i, hi⟩ := Option.isSome_iff_exists.mp hfind
  simp only [EditorManager.push_tab, hi]
  simp

/-- Witness for C9: re-pushing the config tab without focus is the
identity on the concrete one-panel state. -/
theorem c9_push_tab_no_focus_frame_witness :
    config_only_manager.push_tab PanelTab.Config 0 false = config_only_manager :=
  c9_push_tab_no_focus_frame config_only_manager PanelTab.Config 0 (by decide)
    ⟨PanelTab.Config, by decide, rfl⟩

/-! ### Claim C5 -/

/-- One `push_panel`/`close_panel` step keeps the panel list non-empty. -/
theorem panel_op_preserves_nonempty (m : EditorManager) (op : PanelOp)
    (h : 1 ≤ m.panes.length) : 1 ≤ (apply_panel_op m op).panes.length := by
  cases op with
  | push p => simp [apply_panel_op, EditorManager.push_panel]
  | close i =>
    simp only [apply_panel_op, EditorManager.close_panel]
    by_cases hlen : 1 < m.panes.length
    · simp only [hlen, if_pos]
      simp only [List.length_eraseIdx]
      split <;> omega
    · simpa [hlen] using h

/-- C5: `close_panel` is a no-op when exactly one panel remains, and under
every sequence of `push_panel`/`close_panel` operations from the initial
state the panel count never reaches zero. -/
theorem c5_close_panel_nonempty :
    (∀ (m : EditorManager) (panel : Nat), m.panes.length = 1 →
      m.close_panel panel = m) ∧
    (∀ ops : List PanelOp,
      1 ≤ (apply_panel_ops EditorManager.new ops).panes.length) := by
  constructor
  · intro m panel h
    simp [EditorManager.close_panel, h]
  · have step : ∀ ops : List PanelOp, ∀ m : EditorManager,
        1 ≤ m.panes.length → 1 ≤ (apply_panel_ops m ops).panes.length := by
      intro ops
      induction ops with
      | nil => intro m h; simpa [apply_panel_ops] using h
      | cons op rest ih =>
        intro m h
        have := panel_op_preserves_nonempty m op h
        simpa [apply_panel_ops] using ih (apply_panel_op m op) this
    intro ops
    exact step ops EditorManager.new (by simp [EditorManager.new])

/-- Witness for C5: closing the only panel of the initial state is the
identity, and a concrete operation sequence keeps at least one panel. -/
theorem c5_close_panel_nonempty_witness :
    EditorManager.new.close_panel 0 = EditorManager.new ∧
    1 ≤ (apply_panel_ops EditorManager.new
          [PanelOp.push Panel.new, PanelOp.close 0, PanelOp.close 0]).panes.length :=
  ⟨c5_close_panel_nonempty.1 EditorManager.new 0 (by simp [EditorManager.new]),
   c5_close_panel_nonempty.2 [PanelOp.push Panel.new, PanelOp.close 0, PanelOp.close 0]⟩

/-! ### Claim C10 -/

/-- C10: `close_panel` preserves the focus bound: if
`focused_panel < panes.length` held and the closed index was valid, it still
holds afterwards. -/
theorem c10_close_panel_focus_bound (m : EditorManager) (panel : Nat)
    (hf : m.focused_panel < m.panes.length) (hp : panel < m.panes.length) :
    (m.close_panel panel).focused_panel < (m.close_panel panel).panes.length := by
  unfold EditorManager.close_panel
  by_cases hlen : 1 < m.panes.length
  · simp only [hlen, if_pos]
    by_cases h0 : 0 < m.focused_panel <;>
      simp [h0, List.length_eraseIdx, hp] <;> omega
  · simpa [hlen] using hf

/-- A concrete two-panel state focused on panel 1. -/
def two_panel_manager : EditorManager :=
  { EditorManager.new with
    focused_panel := 1
    panes := [Panel.new, Panel.new] }

/-- Witness for C10: closing panel 0 of a two-panel state focused on panel 1
keeps the focus in bounds. -/
theorem c10_close_panel_focus_bound_witness :
    (two_panel_manager.close_panel 0).focused_panel <
      (two_panel_manager.close_panel 0).panes.length :=
  c10_close_panel_focus_bound two_panel_manager 0 (by decide) (by decide)

/-! ### Keypress pipeline (src/tabs/code_editor.rs, `onkeydown`)

`manual_line_height = (font_size * line_height).floor()`;
`lines_jump = (manual_line_height * LINES_JUMP_ALT as f32).ceil() as i32`;
`min_height = -(metrics.len() as f32 * manual_line_height) as i32`;
`max_height = 0`.  Since `manual_line_height` is floored the products are
exact, so the `f32` arithmetic is modelled over `ℚ`/`ℤ` without rounding
loss. -/

/-- `static LINES_JUMP_ALT: usize = 5`. -/
def LINES_JUMP_ALT : Nat := 5

/-- `static LINES_JUMP_CONTROL: usize = 3`. -/
def LINES_JUMP_CONTROL : Nat := 3

/-- The keyboard keys distinguished by the handler; `Other` stands for any
key that is neither arrow key. -/
inductive Key where
  | ArrowUp : Key
  | ArrowDown : Key
  | Other (code : Nat) : Key
deriving DecidableEq, Repr

/-- The modifier bits the handler queries (`e.modifiers.contains(ALT)`,
`e.modifiers.contains(CONTROL)`). -/
structure KeyModifiers where
  alt : Bool
  ctrl : Bool
deriving DecidableEq, Repr

/-- `EditableEvent::KeyDown(e.data)`: the event fed to
`editable.process_event`, carrying the key event data. -/
inductive EditableEvent where
  | KeyDown (key : Key) (mods : KeyModifiers) : EditableEvent
deriving DecidableEq, Repr

/-- Rust `Ord::clamp(lo, hi)`: requires `lo ≤ hi` (here
`min_height ≤ 0 = max_height`). -/
def rust_clamp (v lo hi : Int) : Int :=
  if v < lo then lo else if v > hi then hi else v

/-- `(font_size * line_height).floor()`. -/
def manual_line_height (font_size line_height : ℚ) : Int :=
  ⌊font_size * line_height⌋

/-- `(manual_line_height * LINES_JUMP_ALT as f32).ceil() as i32`. -/
def lines_jump (mlh : Int) : Int :=
  ⌈(mlh : ℚ) * (LINES_JUMP_ALT : ℚ)⌉

/-- `-(metrics.read().0.len() as f32 * manual_line_height) as i32`: the
negated content height (`nlines` visual lines of height `mlh`). -/
def min_height (nlines : Nat) (mlh : Int) : Int :=
  -((nlines : Int) * mlh)

/-- The `match &e.key` of `onkeydown`: the list of `EditableEvent`s applied
to the editor and the new vertical scroll offset.  Guards are checked in
source order: Alt+ArrowUp, Alt+ArrowDown, Control+Arrow, then the default
arm. -/
def keydown_events (key : Key) (mods : KeyModifiers)
    (current_scroll lines_jump min_height : Int) : List EditableEvent × Int :=
  match key with
  | Key.ArrowUp =>
    if mods.alt then
      (List.replicate LINES_JUMP_ALT (EditableEvent.KeyDown key mods),
       rust_clamp (current_scroll + lines_jump) min_height 0)
    else if mods.ctrl then
      (List.replicate LINES_JUMP_CONTROL (EditableEvent.KeyDown key mods),
       current_scroll)
    else ([EditableEvent.KeyDown key mods], current_scroll)
  | Key.ArrowDown =>
    if mods.alt then
      (List.replicate LINES_JUMP_ALT (EditableEvent.KeyDown key mods),
       rust_clamp (current_scroll - lines_jump) min_height 0)
    else if mods.ctrl then
      (List.replicate LINES_JUMP_CONTROL (EditableEvent.KeyDown key mods),
       current_scroll)
    else ([EditableEvent.KeyDown key mods], current_scroll)
  | _ => ([EditableEvent.KeyDown key mods], current_scroll)

/-- The whole `onkeydown` closure: events are produced only when the panel
is focused and the editor is the focused one; otherwise nothing happens. -/
def handle_keydown (is_panel_focused is_editor_focused : Bool) (key : Key)
    (mods : KeyModifiers) (current_scroll lines_jump min_height : Int) :
    List EditableEvent × Int :=
  if is_panel_focused && is_editor_focused then
    keydown_events key mods current_scroll lines_jump min_height
  else ([], current_scroll)

/-! ### Claim C6 -/

/-- C6: for a key event reaching a focused editor, with `mlh` the computed
line height and `nlines` content lines: Alt+ArrowUp/Down applies the plain
arrow action exactly 5 times and moves the vertical scroll offset by
5 line-heights (`lines_jump mlh = 5 * mlh`), clamped to
`[-(nlines * mlh), 0]`; Control+ArrowUp/Down applies the action exactly
3 times with no scroll change; every other key (a non-arrow key, or an
arrow without Alt/Control) applies exactly once with no scroll change. -/
theorem c6_keydown_policy (mods : KeyModifiers) (s : Int) (nlines : Nat)
    (mlh : Int) (key : Key) :
    (mods.alt = true →
      handle_keydown true true Key.ArrowUp mods s (lines_jump mlh)
          (min_height nlines mlh) =
        (List.replicate 5 (EditableEvent.KeyDown Key.ArrowUp mods),
         rust_clamp (s + 5 * mlh) (-((nlines : Int) * mlh)) 0)) ∧
    (mods.alt = true →
      handle_keydown true true Key.ArrowDown mods s (lines_jump mlh)
          (min_height nlines mlh) =
        (List.replicate 5 (EditableEvent.KeyDown Key.ArrowDown mods),
         rust_clamp (s - 5 * mlh) (-((nlines : Int) * mlh)) 0)) ∧
    (mods.alt = false → mods.ctrl = true →
      handle_keydown true true Key.ArrowUp mods s (lines_jump mlh)
          (min_height nlines mlh) =
        (List.replicate 3 (EditableEvent.KeyDown Key.ArrowUp mods), s) ∧
      handle_keydown true true Key.ArrowDown mods s (lines_jump mlh)
          (min_height nlines mlh) =
        (List.replicate 3 (EditableEvent.KeyDown Key.ArrowDown mods), s)) ∧
    ((key ≠ Key.ArrowUp ∧ key ≠ Key.ArrowDown) ∨
        (mods.alt = false ∧ mods.ctrl = false) →
      handle_keydown true true key mods s (lines_jump mlh)
          (min_height nlines mlh) =
        ([EditableEvent.KeyDown key mods], s)) := by
  have hjump : lines_jump mlh = 5 * mlh := by
    unfold lines_jump LINES_JUMP_ALT
    rw [show ((mlh : ℚ) * ((5 : Nat) : ℚ)) = (((mlh * 5 : Int) : ℚ)) by push_cast; ring]
    rw [Int.ceil_intCast]
    ring
  refine ⟨?_, ?_, ?_, ?_⟩
  · intro halt
    simp [handle_keydown, keydown_events, halt, hjump, min_height,
      LINES_JUMP_ALT]
  · intro halt
    simp [handle_keydown, keydown_events, halt, hjump, min_height,
      LINES_JUMP_ALT]
  · intro halt hctrl
    constructor <;>
      simp [handle_keydown, keydown_events, halt, hctrl, LINES_JUMP_CONTROL]
  · rintro (⟨hup, hdown⟩ | ⟨halt, hctrl⟩)
    · cases key with
      | ArrowUp => exact absurd rfl hup
      | ArrowDown => exact absurd rfl hdown
      | Other c => simp [handle_keydown, keydown_events]
    · cases key <;> simp [handle_keydown, keydown_events, halt, hctrl]

/-- Witness for C6 at concrete inputs: line height 20, 3 content lines,
scroll 0: Alt+ArrowDown yields five key events and scroll
`clamp (0 - 100) (-60) 0 = -60`; a plain character key yields one event. -/
theorem c6_keydown_policy_witness :
    handle_keydown true true Key.ArrowDown ⟨true, false⟩ 0 (lines_jump 20)
        (min_height 3 20) =
      (List.replicate 5 (EditableEvent.KeyDown Key.ArrowDown ⟨true, false⟩),
       rust_clamp (0 - 5 * 20) (-((3 : Nat) : Int) * 20) 0) ∧
    handle_keydown true true (Key.Other 7) ⟨false, false⟩ 0 (lines_jump 20)
        (min_height 3 20) =
      ([EditableEvent.KeyDown (Key.Other 7) ⟨false, false⟩], 0) := by
  constructor
  · have h := (c6_keydown_policy ⟨true, false⟩ 0 3 20 (Key.Other 0)).2.1 rfl
    simpa using h
  · exact (c6_keydown_policy ⟨false, false⟩ 0 3 20 (Key.Other 7)).2.2.2
      (Or.inl ⟨by decide, by decide⟩)

/-! ### LSP hover action loop (src/tabs/code_editor.rs, `lsp_coroutine`)

`LspAction::Hover(params)` carries the requested position; the handler reads
`params.text_document_position_params.position.line`, so the action is
modelled by that line.  The awaited `hover` RPC outcome is an input of the
step (`Except Unit (Option HoverContents)`: `.error` for `Err(_)`, `.ok none`
for `Ok(None)`).  `hover_location` is the `UseRef<Option<(u32, Hover)>>`. -/

/-- `lsp_types::MarkedString`. -/
inductive MarkedString where
  | Str (value : String) : MarkedString
  | LanguageString (language value : String) : MarkedString
deriving DecidableEq, Repr

/-- `lsp_types::HoverContents`. -/
inductive HoverContents where
  | Markup (value : String) : HoverContents
  | Arr (contents : List MarkedString) : HoverContents
  | Scalar (content : MarkedString) : HoverContents
deriving DecidableEq, Repr

/-- The text of one `MarkedString` (both arms of the inner `match`). -/
def MarkedString.text : MarkedString → String
  | MarkedString.Str v => v
  | MarkedString.LanguageString _ v => v

/-- `Hover::hover_to_text`: collapse hover contents to plain text; the
empty-unit result `"()"` is treated as no content. -/
def hover_to_text (h : HoverContents) : Option String :=
  let text :=
    match h with
    | HoverContents.Markup v => v
    | HoverContents.Arr contents =>
      String.intercalate "\n" (contents.map MarkedString.text)
    | HoverContents.Scalar v => v.text
  if text = "()" then none else some text

/-- `LspAction` of src/tabs/code_editor.rs; `Hover` is modelled by the
requested line. -/
inductive LspAction where
  | Hover (line : Nat) : LspAction
  | Clear : LspAction
deriving DecidableEq, Repr

/-- The soft notices printed by the action loop. -/
inductive Notice where
  | StillIndexing : Notice
  | NotRunning : Notice
deriving DecidableEq, Repr

/-- One iteration of the `lsp_coroutine` loop: given the session looked up
for the configuration (`manager.current().lsp(&lsp_config)`), the awaited
RPC outcome, the action, and the current `hover_location`, produce the new
`hover_location` and the emitted notice, if any. -/
def process_lsp_action (session : Option LSPBridge)
    (response : Except Unit (Option HoverContents)) (action : LspAction)
    (hover_location : Option (Nat × HoverContents)) :
    Option (Nat × HoverContents) × Option Notice :=
  match action with
  | LspAction.Hover line =>
    match session with
    | some lsp =>
      if lsp.indexed then
        match response with
        | Except.ok (some res) => (some (line, res), none)
        | _ => (none, none)
      else (hover_location, some Notice.StillIndexing)
    | none => (hover_location, some Notice.NotRunning)
  | LspAction.Clear => (none, none)

/-- The action loop over a queue of actions (each paired with the RPC
outcome the server would return for it), strictly in arrival order. -/
def run_lsp_actions (session : Option LSPBridge)
    (steps : List (LspAction × Except Unit (Option HoverContents)))
    (hover_location : Option (Nat × HoverContents)) :
    Option (Nat × HoverContents) :=
  steps.foldl (fun hl step => (process_lsp_action session step.2 step.1 hl).1)
    hover_location

/-- The hover display guard of `EditorLine`
(`if let Some((line, hover)) = hover_location … if *line == *line_index`):
the text shown on visual line `line_index`, if any. -/
def editor_line_hover (hover_location : Option (Nat × HoverContents))
    (line_index : Nat) : Option String :=
  match hover_location with
  | some (line, hover) =>
    if line = line_index then hover_to_text hover else none
  | none => none

/-! ### Claim C7 -/

/-- C7: a hover request for `line` — when no session exists for the
configuration, the request is dropped with a "not running" notice and the
stored hover state is untouched; when the session's `indexed` flag is false,
it is dropped with a "still indexing" notice and the stored state is
untouched; otherwise the request is issued, a successful non-empty response
is stored keyed by the requested line, and a failed or empty response clears
the stored hover state. -/
theorem c7_hover_error_handling (line : Nat)
    (hl : Option (Nat × HoverContents)) (b : LSPBridge)
    (response : Except Unit (Option HoverContents)) :
    (process_lsp_action none response (LspAction.Hover line) hl =
      (hl, some Notice.NotRunning)) ∧
    (b.indexed = false →
      process_lsp_action (some b) response (LspAction.Hover line) hl =
        (hl, some Notice.StillIndexing)) ∧
    (b.indexed = true → ∀ res, response = Except.ok (some res) →
      process_lsp_action (some b) response (LspAction.Hover line) hl =
        (some (line, res), none)) ∧
    (b.indexed = true →
      response = Except.ok none ∨ response = Except.error () →
      process_lsp_action (some b) response (LspAction.Hover line) hl =
        (none, none)) := by
  refine ⟨rfl, ?_, ?_, ?_⟩
  · intro hidx
    simp [process_lsp_action, hidx]
  · intro hidx res hres
    simp [process_lsp_action, hidx, hres]
  · intro hidx hres
    rcases hres with h | h <;> simp [process_lsp_action, hidx, h]

/-- Witness for C7: with an indexed session, a successful hover response for
line 4 is stored keyed by line 4. -/
theorem c7_hover_error_handling_witness :
    process_lsp_action (some { indexed := true })
        (Except.ok (some (HoverContents.Markup "doc"))) (LspAction.Hover 4)
        none =
      (some (4, HoverContents.Markup "doc"), none) :=
  ((c7_hover_error_handling 4 none { indexed := true }
      (Except.ok (some (HoverContents.Markup "doc")))).2.2.1 rfl
    (HoverContents.Markup "doc") rfl)

/-! ### Claim C8 -/

/-- C8 counterexample: a hover response tagged with line `L = 0`, arriving
while the pointer is on line `M = 1`, is **not** discarded on arrival: the
handler stores it keyed by line 0 (the loop never consults the pointer's
current line), so the stored hover state is `some (0, …)`, not empty. -/
theorem c8_counterexample :
    (process_lsp_action (some { indexed := true })
        (Except.ok (some (HoverContents.Markup "doc"))) (LspAction.Hover 0)
        none).1 = some (0, HoverContents.Markup "doc") ∧
    (process_lsp_action (some { indexed := true })
        (Except.ok (some (HoverContents.Markup "doc"))) (LspAction.Hover 0)
        none).1 ≠ none := by
  decide

/-- C8 amended: a hover response tagged with line `L` is stored keyed by `L`
on arrival (not discarded); a line `M ≠ L` never displays it, because the
`EditorLine` guard shows a stored hover only on the line whose index equals
the stored line; and the stored state becomes empty once the `Clear` action
sent when the pointer left line `L` is processed (so the move-away queue
`[Hover L, Clear]` ends with empty hover state). -/
theorem c8_hover_suppression (L M : Nat) (h : HoverContents) (b : LSPBridge)
    (hl : Option (Nat × HoverContents)) (session : Option LSPBridge)
    (r1 r2 : Except Unit (Option HoverContents)) :
    (b.indexed = true →
      (process_lsp_action (some b) (Except.ok (some h)) (LspAction.Hover L)
          hl).1 = some (L, h)) ∧
    (L ≠ M → editor_line_hover (some (L, h)) M = none) ∧
    run_lsp_actions session [(LspAction.Hover L, r1), (LspAction.Clear, r2)] hl =
      none := by
    refine ⟨?_, ?_, ?_⟩
    · intro hidx
      simp [process_lsp_action, hidx]
    · intro hne
      simp [editor_line_hover, hne]
    · simp [run_lsp_actions, process_lsp_action]

/-- Witness for C8's amended theorem at concrete inputs: the response for
line 0 is stored on arrival, line 1 displays nothing, and the queue
`[Hover 0, Clear]` ends empty. -/
theorem c8_hover_suppression_witness :
    (process_lsp_action (some { indexed := true })
        (Except.ok (some (HoverContents.Markup "doc"))) (LspAction.Hover 0)
        none).1 = some (0, HoverContents.Markup "doc") ∧
    editor_line_hover (some (0, HoverContents.Markup "doc")) 1 = none ∧
    run_lsp_actions (some { indexed := true })
        [(LspAction.Hover 0, Except.ok (some (HoverContents.Markup "doc"))),
         (LspAction.Clear, Except.ok none)] none = none := by
  have h := c8_hover_suppression 0 1 (HoverContents.Markup "doc")
    { indexed := true } none (some { indexed := true })
    (Except.ok (some (HoverContents.Markup "doc"))) (Except.ok none)
  exact ⟨h.1 rfl, h.2.1 (by decide), h.2.2⟩

end FreyaEditor
